import Mathlib

set_option maxRecDepth 10000

/-!
Shallow embedding of `src/main/scala/org/bblfsh/client/libuast/objtrack.c`,
the allocation tracker of the scala-client repository.

The C file holds one global `AllocVector *_allocVector`, lazily created by
`trackObject` (via `initAllocVector`) and destroyed by `freeObjects`.  We embed:

* `AllocVector` — the C struct `{ jobject **vector; size_t used; size_t size; }`.
  `jobject*` pointer values are modelled as `Nat`, with `0` standing for `NULL`.
  The backing array `vector` is modelled as a `List` of length `size`; C leaves
  freshly `malloc`ed / `realloc`ed slots uninitialized and never reads a slot
  before writing it, so the model fills unwritten slots with `0`.
* the global state — `Option AllocVector`, `none` being `_allocVector == NULL`
  (the "uninitialized" state).  The C guard also re-initializes when
  `_allocVector->vector == NULL`; no reachable state of the program has an
  allocated tracker with a `NULL` vector (`freeObjects` nulls the global right
  after nulling the vector field), so the model's `some` states always carry a
  vector.
* `size_t` arithmetic as `Nat`: the only arithmetic is `size *= 2` and
  `used++`, and no claim comes near `2^64`, so wrap-around never matters.
* observable actions as an `Event` trace: calls to `free`, the nulling of a
  slot, the freeing of the backing array and of the struct, growth events and
  stores.  The claims about release counts and order are stated on this trace.
-/

namespace ObjTrack

/-- A `jobject*` pointer value; `0` models `NULL`. -/
abbrev Handle := Nat

/-- Observable actions of the two operations. -/
inductive Event where
  /-- `_allocVector->size *= 2` together with the `realloc` to the new size. -/
  | grow (newSize : Nat)
  /-- `_allocVector->vector[_allocVector->used++] = obj`. -/
  | store (p : Handle)
  /-- `free(_allocVector->vector[i])` inside the loop of `freeObjects`. -/
  | free (p : Handle)
  /-- `_allocVector->vector[i] = NULL` inside the loop of `freeObjects`. -/
  | clearSlot (i : Nat)
  /-- `free(_allocVector->vector)`. -/
  | freeVector
  /-- `free(_allocVector)`. -/
  | freeTracker
  deriving DecidableEq, Repr

/-- The C struct `AllocVector`.  `vector` models the backing array of `size`
slots (`0` in a slot the program has not written). -/
structure AllocVector where
  vector : List Handle
  used : Nat
  size : Nat
  deriving DecidableEq, Repr

/-- `const int initialSize = 128;` in `initAllocVector`. -/
def initialSize : Nat := 128

/-- `initAllocVector`: a fresh tracker with `used = 0` and `size = 128`.
The `malloc`ed array of 128 uninitialized slots is modelled as 128 zeros. -/
def initAllocVector : AllocVector :=
  { vector := List.replicate initialSize 0, used := 0, size := initialSize }

/-- `trackObject(obj)`: lazily initialize, double the capacity via `realloc`
when `used == size` (realloc preserves the old `size` slots and adds
uninitialized ones, modelled as zeros), then store `obj` at index `used` and
increment `used`.  Returns the new global state and the trace of the call. -/
def trackObject (s : Option AllocVector) (obj : Handle) :
    Option AllocVector × List Event :=
  let av : AllocVector :=
    match s with
    | none => initAllocVector
    | some av => av
  let grown : AllocVector × List Event :=
    if av.used = av.size then
      let newSize := av.size * 2
      ({ vector := av.vector ++ List.replicate (newSize - av.vector.length) 0,
         used := av.used, size := newSize },
       [Event.grow newSize])
    else
      (av, [])
  (some { vector := grown.1.vector.set grown.1.used obj,
          used := grown.1.used + 1, size := grown.1.size },
   grown.2 ++ [Event.store obj])

/-- The loop `for (int i=0; i < _allocVector->used; i++) { free(vector[i]);
vector[i] = NULL; }`, with `n` the number of remaining iterations and `i` the
current index.  Each step frees the pointer in slot `i`, then nulls the slot,
then moves on.  Returns the final array and the trace. -/
def freeLoop : List Handle → Nat → Nat → List Handle × List Event
  | v, _, 0 => (v, [])
  | v, i, n + 1 =>
    let rest := freeLoop (v.set i 0) (i + 1) n
    (rest.1, Event.free (v.getD i 0) :: Event.clearSlot i :: rest.2)

/-- `freeObjects()`: a no-op when `_allocVector == NULL`; otherwise run the
freeing loop over slots `0..used`, then `free` the backing array, then `free`
the struct, then reset the global to `NULL`. -/
def freeObjects (s : Option AllocVector) : Option AllocVector × List Event :=
  match s with
  | none => (none, [])
  | some av =>
    let loop := freeLoop av.vector 0 av.used
    (none, loop.2 ++ [Event.freeVector, Event.freeTracker])

/-- Run a whole sequence of `trackObject` calls, concatenating the traces. -/
def runTrack : Option AllocVector → List Handle → Option AllocVector × List Event
  | s, [] => (s, [])
  | s, h :: t =>
    let r := trackObject s h
    let r' := runTrack r.1 t
    (r'.1, r.2 ++ r'.2)

/-- The pointers passed to `free` in a trace, in call order. -/
def freedPtrs (evs : List Event) : List Handle :=
  evs.filterMap fun e =>
    match e with
    | Event.free p => some p
    | _ => none

/-- How many growth (`realloc`) events a trace holds. -/
def growCount (evs : List Event) : Nat :=
  evs.countP fun e =>
    match e with
    | Event.grow _ => true
    | _ => false

/-- The registered handles of a state: the first `used` slots of the backing
array (empty for the uninitialized state). -/
def contents : Option AllocVector → List Handle
  | none => []
  | some av => av.vector.take av.used

/-- The `used` counter of a state (`0` for the uninitialized state). -/
def usedOf : Option AllocVector → Nat
  | none => 0
  | some av => av.used

/-- The structural invariant of an allocated tracker: `used` never exceeds
`size`, the backing array really has `size` slots, and `size` is positive.
The uninitialized state satisfies it trivially. -/
def goodState : Option AllocVector → Prop
  | none => True
  | some av => av.used ≤ av.size ∧ av.vector.length = av.size ∧ 0 < av.size

/-- The states reachable from the uninitialized start state by any sequence of
`trackObject` and `freeObjects` calls. -/
inductive Reachable : Option AllocVector → Prop where
  | init : Reachable none
  | track (s : Option AllocVector) (h : Handle) :
      Reachable s → Reachable (trackObject s h).1
  | free (s : Option AllocVector) :
      Reachable s → Reachable (freeObjects s).1

/-- Outcome of a `trackObject` call when allocation can fail. -/
inductive AllocOutcome where
  /-- All needed allocations succeeded; `s` and `evs` as in `trackObject`. -/
  | ok (s : Option AllocVector) (evs : List Event)
  /-- Undefined behavior: a failed allocation's `NULL` result was dereferenced. -/
  | ub
  deriving DecidableEq, Repr

/-- `trackObject` with the allocator made explicit.  When `allocOk` is `false`
every `malloc`/`realloc` in the call returns `NULL`.  The C code never checks
those results: on the init path it immediately writes through the `NULL`
struct pointer (or stores a `NULL` array and then writes `vector[0]`), and on
the growth path it stores the `NULL` `realloc` result and then writes
`vector[used]` — all undefined behavior, modelled as `AllocOutcome.ub`.
When no allocation happens, or all succeed, the call is exactly `trackObject`. -/
def trackObjectAlloc (allocOk : Bool) (s : Option AllocVector) (obj : Handle) :
    AllocOutcome :=
  match s with
  | none =>
    if allocOk then
      AllocOutcome.ok (trackObject none obj).1 (trackObject none obj).2
    else
      AllocOutcome.ub
  | some av =>
    if av.used = av.size then
      if allocOk then
        AllocOutcome.ok (trackObject (some av) obj).1 (trackObject (some av) obj).2
      else
        AllocOutcome.ub
    else
      AllocOutcome.ok (trackObject (some av) obj).1 (trackObject (some av) obj).2

/-- Whether a `trackObject` call from state `s` performs an allocation
(`malloc` on the init path, `realloc` on the growth path). -/
def needsAlloc : Option AllocVector → Prop
  | none => True
  | some av => av.used = av.size

/-- The concrete input of the growth scenario: the 129 distinct handles
`1, 2, ..., 129`. -/
def hs129 : List Handle := (List.range 129).map (fun i => i + 1)

/-!  General lemmas about the embedding.  -/

/-- Setting slot `i` and taking `i + 1` entries yields the old prefix plus the
new entry. -/
theorem take_set_eq (v : List Handle) (i : Nat) (x : Handle) (h : i < v.length) :
    (v.set i x).take (i + 1) = v.take i ++ [x] := by
  induction v generalizing i with
  | nil => simp at h
  | cons a t ih =>
    cases i with
    | zero => simp
    | succ j =>
      simp only [List.set_cons_succ, List.take_succ_cons, List.cons_append]
      rw [ih j (by simpa using h)]

/-- Setting one slot leaves every other slot unchanged. -/
theorem getD_set_ne (v : List Handle) (i j : Nat) (x : Handle) (h : i ≠ j) :
    (v.set i x).getD j 0 = v.getD j 0 := by
  simp [List.getD, List.getElem?_set_ne h]

/-- Reading inside the taken prefix is reading the original list. -/
theorem getD_take (v : List Handle) (n j : Nat) (h : j < n) :
    (v.take n).getD j 0 = v.getD j 0 := by
  simp [List.getD, List.getElem?_take, h]

/-- The trace of the freeing loop: for each index in order, a `free` of the
slot's pointer followed by the nulling of the slot.  The nulling of earlier
slots never changes what later iterations read, because the loop walks
left to right. -/
theorem freeLoop_snd (v : List Handle) (n : Nat) : ∀ (i : Nat),
    (freeLoop v i n).2 =
      (List.range n).flatMap fun j =>
        [Event.free (v.getD (i + j) 0), Event.clearSlot (i + j)] := by
  induction n generalizing v with
  | zero => intro i; simp [freeLoop]
  | succ m ih =>
    intro i
    have hset : ∀ j : Nat, (v.set i 0).getD (i + 1 + j) 0 = v.getD (i + 1 + j) 0 := by
      intro j
      exact getD_set_ne v i (i + 1 + j) 0 (by omega)
    simp only [freeLoop, ih (v.set i 0) (i + 1), List.range_succ_eq_map,
      List.flatMap_cons, List.flatMap_map]
    simp only [Nat.add_zero, List.cons_append, List.nil_append]
    have he : (fun j => [Event.free ((v.set i 0).getD (i + 1 + j) 0),
        Event.clearSlot (i + 1 + j)]) =
        (fun a : Nat => [Event.free (v.getD (i + a.succ) 0), Event.clearSlot (i + a.succ)]) := by
      funext j
      have e : i + 1 + j = i + j.succ := by omega
      rw [hset j, e]
    rw [he]

theorem freedPtrs_append (a b : List Event) :
    freedPtrs (a ++ b) = freedPtrs a ++ freedPtrs b := by
  simp [freedPtrs]

/-- Reading slots `0, ..., n-1` one by one reads off the length-`n` prefix. -/
theorem range_map_getD (v : List Handle) (n : Nat) (hn : n ≤ v.length) :
    (List.range n).map (fun j => v.getD j 0) = v.take n := by
  induction n with
  | zero => simp
  | succ m ih =>
    rw [List.range_succ, List.map_append, ih (by omega)]
    have hm : m < v.length := by omega
    rw [List.take_succ]
    simp [List.getD, List.getElem?_eq_getElem hm]

theorem freedPtrs_flatMap_pair (l : List Nat) (f : Nat → Handle) (g : Nat → Nat) :
    freedPtrs (l.flatMap fun j => [Event.free (f j), Event.clearSlot (g j)]) =
      l.map f := by
  induction l with
  | nil => simp [freedPtrs]
  | cons a t ih => simp [freedPtrs] at ih ⊢; exact ih

/-- `freeObjects` on an allocated tracker frees exactly the first `used`
slots, in slot order. -/
theorem freedPtrs_freeObjects (av : AllocVector) (h : av.used ≤ av.vector.length) :
    freedPtrs (freeObjects (some av)).2 = av.vector.take av.used := by
  show freedPtrs ((freeLoop av.vector 0 av.used).2 ++ [Event.freeVector, Event.freeTracker])
      = av.vector.take av.used
  rw [freedPtrs_append, freeLoop_snd]
  simp only [Nat.zero_add]
  rw [freedPtrs_flatMap_pair, range_map_getD av.vector av.used h]
  simp [freedPtrs]

/-- A `trackObject` call from the uninitialized state: lazily create the
tracker and store `obj` in slot `0`. -/
theorem trackObject_none_eq (obj : Handle) :
    trackObject none obj =
      (some { vector := (List.replicate 128 0).set 0 obj, used := 1, size := 128 },
       [Event.store obj]) := by
  simp [trackObject, initAllocVector, initialSize]

/-- `freeObjects` always leaves the global reference `NULL`. -/
theorem freeObjects_fst (s : Option AllocVector) : (freeObjects s).1 = none := by
  cases s <;> rfl

/-- What one `trackObject` call does to an allocated tracker satisfying the
structural invariant: `used` grows by one, the capacity doubles exactly when
the tracker was full, the invariant is preserved, and the registered prefix
is the old prefix with `obj` appended. -/
theorem trackObject_some_spec (av : AllocVector) (hlen : av.vector.length = av.size)
    (hle : av.used ≤ av.size) (hpos : 0 < av.size) (obj : Handle) :
    ∃ av', (trackObject (some av) obj).1 = some av' ∧
      av'.used = av.used + 1 ∧
      av'.size = (if av.used = av.size then av.size * 2 else av.size) ∧
      av'.vector.length = av'.size ∧ 0 < av'.size ∧ av'.used ≤ av'.size ∧
      av'.vector.take av'.used = av.vector.take av.used ++ [obj] := by
  by_cases hc : av.used = av.size
  · refine ⟨⟨(av.vector ++
        List.replicate (av.size * 2 - av.vector.length) 0).set av.used obj,
        av.used + 1, av.size * 2⟩, ?_, rfl, ?_, ?_, ?_, ?_, ?_⟩
    · simp [trackObject, hc]
    · simp [hc]
    · simp only [List.length_set, List.length_append, List.length_replicate]
      omega
    · simp only []
      omega
    · simp only []
      omega
    · show ((av.vector ++ List.replicate (av.size * 2 - av.vector.length) 0).set
          av.used obj).take (av.used + 1) = av.vector.take av.used ++ [obj]
      rw [take_set_eq _ _ _ (by simp only [List.length_append, List.length_replicate]; omega)]
      congr 1
      have h1 : av.used = av.vector.length := by omega
      rw [h1, List.take_left, List.take_length]
  · refine ⟨⟨av.vector.set av.used obj, av.used + 1, av.size⟩, ?_, rfl, ?_, ?_, ?_, ?_, ?_⟩
    · simp [trackObject, hc]
    · simp [hc]
    · simp only [List.length_set]
      omega
    · simp only []
      omega
    · simp only []
      omega
    · show (av.vector.set av.used obj).take (av.used + 1) = av.vector.take av.used ++ [obj]
      rw [take_set_eq _ _ _ (by omega)]

/-- `trackObject` never emits a `free` event: no handle is released during
registration. -/
theorem freedPtrs_trackObject (s : Option AllocVector) (obj : Handle) :
    freedPtrs (trackObject s obj).2 = [] := by
  cases s with
  | none =>
    by_cases hc : initAllocVector.used = initAllocVector.size <;>
      simp [trackObject, freedPtrs, hc]
  | some av =>
    by_cases hc : av.used = av.size <;> simp [trackObject, freedPtrs, hc]

/-- One `trackObject` call preserves the invariant, appends `obj` to the
registered handles and increments the count, from any good state. -/
theorem trackObject_step (s : Option AllocVector) (hg : goodState s) (obj : Handle) :
    goodState (trackObject s obj).1 ∧
    contents (trackObject s obj).1 = contents s ++ [obj] ∧
    usedOf (trackObject s obj).1 = usedOf s + 1 := by
  cases s with
  | none =>
    rw [trackObject_none_eq]
    refine ⟨⟨?_, ?_, ?_⟩, ?_, rfl⟩
    · show 1 ≤ 128
      omega
    · show ((List.replicate 128 0).set 0 obj).length = 128
      simp
    · show (0:Nat) < 128
      omega
    · show ((List.replicate 128 0).set 0 obj).take 1 = [] ++ [obj]
      rw [take_set_eq _ _ _ (by simp)]
      simp
  | some av =>
    obtain ⟨hle, hlen, hpos⟩ := hg
    obtain ⟨av', heq, hu, _, hlen', hpos', hle', htake⟩ :=
      trackObject_some_spec av hlen hle hpos obj
    rw [heq]
    exact ⟨⟨hle', hlen', hpos'⟩, htake, by simpa [usedOf] using hu⟩

/-- Running a whole sequence of `trackObject` calls preserves the invariant,
appends the handles in order, adds their number to the count, and frees
nothing. -/
theorem runTrack_spec (hs : List Handle) : ∀ (s : Option AllocVector), goodState s →
    goodState (runTrack s hs).1 ∧
    contents (runTrack s hs).1 = contents s ++ hs ∧
    usedOf (runTrack s hs).1 = usedOf s + hs.length ∧
    freedPtrs (runTrack s hs).2 = [] := by
  induction hs with
  | nil => intro s hg; exact ⟨hg, by simp [runTrack], by simp [runTrack], rfl⟩
  | cons h t ih =>
    intro s hg
    obtain ⟨hg1, hc1, hu1⟩ := trackObject_step s hg h
    obtain ⟨hg2, hc2, hu2, hf2⟩ := ih (trackObject s h).1 hg1
    refine ⟨hg2, ?_, ?_, ?_⟩
    · show contents (runTrack (trackObject s h).1 t).1 = contents s ++ h :: t
      rw [hc2, hc1]
      simp
    · show usedOf (runTrack (trackObject s h).1 t).1 = usedOf s + (h :: t).length
      rw [hu2, hu1]
      simp
      omega
    · show freedPtrs ((trackObject s h).2 ++ (runTrack (trackObject s h).1 t).2) = []
      rw [freedPtrs_append, freedPtrs_trackObject, hf2]
      rfl

/-- Every reachable state satisfies the structural invariant. -/
theorem reachable_goodState (s : Option AllocVector) (h : Reachable s) :
    goodState s := by
  induction h with
  | init => trivial
  | track s' obj _ ih => exact (trackObject_step s' ih obj).1
  | free s' _ _ => rw [freeObjects_fst]; trivial

/-- Registering a sequence of handles from scratch and then releasing frees
exactly those handles, in registration order. -/
theorem run_then_free (hs : List Handle) :
    freedPtrs (freeObjects (runTrack none hs).1).2 = hs := by
  obtain ⟨hg, hc, hu, hf⟩ := runTrack_spec hs none trivial
  cases heq : (runTrack none hs).1 with
  | none =>
    rw [heq] at hc
    have hnil : hs = [] := by simpa [contents] using hc.symm
    subst hnil
    rfl
  | some av =>
    rw [heq] at hc hg
    obtain ⟨hle, hlen, hpos⟩ := hg
    rw [freedPtrs_freeObjects av (by omega)]
    simpa [contents] using hc

/-!  The claims.  -/

/-- Claim C1: for every sequence of `N` track calls followed by one
`release_all`, no handle is released during the track calls, and the
`release_all` frees exactly the `N` registered handles, each exactly once, in
registration order (the freed-pointer list equals the registered list). -/
theorem claim1_release_matches_registration (hs : List Handle) :
    freedPtrs (runTrack none hs).2 = [] ∧
    freedPtrs (freeObjects (runTrack none hs).1).2 = hs :=
  ⟨(runTrack_spec hs none trivial).2.2.2, run_then_free hs⟩

/-- Claim C2: from the uninitialized state, registering the 128 handles
`1..128` causes no growth event; registering `1..129` causes exactly one;
afterwards the capacity is `256`, the count is `129`, and the registered
handles are exactly `1..129` in registration order. -/
theorem claim2_growth_at_129 :
    growCount (runTrack none (hs129.take 128)).2 = 0 ∧
    growCount (runTrack none hs129).2 = 1 ∧
    (runTrack none hs129).1.map AllocVector.size = some 256 ∧
    (runTrack none hs129).1.map AllocVector.used = some 129 ∧
    contents (runTrack none hs129).1 = hs129 :=
  ⟨by decide, by decide, by decide, by decide, by decide⟩

/-- Claim C3: `release_all` on the uninitialized state does nothing (no event,
state unchanged, no error path exists), and after any `release_all` the state
is uninitialized, so a second consecutive `release_all` is always such a
no-op. -/
theorem claim3_release_noop_when_uninitialized :
    freeObjects none = (none, []) ∧
    ∀ s : Option AllocVector, freeObjects (freeObjects s).1 = (none, []) := by
  refine ⟨rfl, fun s => ?_⟩
  rw [freeObjects_fst]
  rfl

/-- Claim C4, counterexample: when allocation fails on a `trackObject` call
from the uninitialized state, the call ends in undefined behavior (the `NULL`
result of `malloc` is dereferenced), not in any recoverable result: the claim
that `track` surfaces `OutOfMemory` to its caller is false of this code. -/
theorem claim4_counterexample :
    trackObjectAlloc false none 5 = AllocOutcome.ub ∧
    trackObjectAlloc false none 5 ≠ AllocOutcome.ok (trackObject none 5).1 (trackObject none 5).2 := by
  refine ⟨rfl, ?_⟩
  intro h
  exact AllocOutcome.noConfusion h

/-- Claim C4, amended: `trackObject` never checks its allocations.  Whenever
the call allocates (first call, or growth on a full tracker) and allocation
fails, the result is undefined behavior rather than a surfaced error; when
allocation succeeds the call behaves as `trackObject`. -/
theorem claim4_oom_is_undefined_behavior (s : Option AllocVector) (obj : Handle) :
    (needsAlloc s → trackObjectAlloc false s obj = AllocOutcome.ub) ∧
    trackObjectAlloc true s obj =
      AllocOutcome.ok (trackObject s obj).1 (trackObject s obj).2 := by
  cases s with
  | none => exact ⟨fun _ => rfl, rfl⟩
  | some av =>
    constructor
    · intro hna
      have hc : av.used = av.size := hna
      simp [trackObjectAlloc, hc]
    · by_cases hc : av.used = av.size <;> simp [trackObjectAlloc, hc]

theorem claim4_witness :
    trackObjectAlloc false none 7 = AllocOutcome.ub ∧
    trackObjectAlloc true none 7 =
      AllocOutcome.ok (trackObject none 7).1 (trackObject none 7).2 :=
  ⟨(claim4_oom_is_undefined_behavior none 7).1 trivial,
   (claim4_oom_is_undefined_behavior none 7).2⟩

/-- Claim C5: a `trackObject` call on an allocated tracker satisfying the
structural invariant doubles the capacity exactly when the tracker is full,
preserving the registered entries and their order, appends the handle at index
`used` and increments `used`; no registered handle is lost or reordered. -/
theorem claim5_track_appends (av : AllocVector) (hg : goodState (some av)) (obj : Handle) :
    ∃ av', (trackObject (some av) obj).1 = some av' ∧
      av'.used = av.used + 1 ∧
      av'.size = (if av.used = av.size then av.size * 2 else av.size) ∧
      av'.vector.take av'.used = av.vector.take av.used ++ [obj] := by
  obtain ⟨hle, hlen, hpos⟩ := hg
  obtain ⟨av', heq, hu, hsz, _, _, _, ht⟩ := trackObject_some_spec av hlen hle hpos obj
  exact ⟨av', heq, hu, hsz, ht⟩

theorem claim5_witness :
    ∃ av', (trackObject (some initAllocVector) 7).1 = some av' ∧
      av'.used = initAllocVector.used + 1 ∧
      av'.size = (if initAllocVector.used = initAllocVector.size then
        initAllocVector.size * 2 else initAllocVector.size) ∧
      av'.vector.take av'.used = initAllocVector.vector.take initAllocVector.used ++ [7] :=
  claim5_track_appends initAllocVector
    ⟨Nat.zero_le _, by simp [initAllocVector, initialSize], by norm_num [initAllocVector, initialSize]⟩ 7

/-- Claim C6: after any `release_all`, the next `trackObject` call creates a
fresh tracker with capacity `128` and count `1`, holding only the new
handle. -/
theorem claim6_fresh_tracker_after_release (s : Option AllocVector) (obj : Handle) :
    ∃ av, (trackObject (freeObjects s).1 obj).1 = some av ∧
      av.size = 128 ∧ av.used = 1 ∧ av.vector.take av.used = [obj] := by
  rw [freeObjects_fst, trackObject_none_eq]
  refine ⟨_, rfl, rfl, rfl, ?_⟩
  show ((List.replicate 128 0).set 0 obj).take 1 = [obj]
  rw [take_set_eq _ _ _ (by simp)]
  simp

/-- Claim C7: releasing after a nonempty registration sequence produces, for
each slot in increasing order, a `free` of that slot's handle immediately
followed by the nulling of the slot, then the `free` of the backing array,
then the `free` of the tracker struct, and leaves the global reference
uninitialized. -/
theorem claim7_release_event_order (hs : List Handle) (hne : hs ≠ []) :
    freeObjects (runTrack none hs).1 =
      (none, ((List.range hs.length).flatMap fun i =>
        [Event.free (hs.getD i 0), Event.clearSlot i]) ++
        [Event.freeVector, Event.freeTracker]) := by
  obtain ⟨hg, hc, hu, _⟩ := runTrack_spec hs none trivial
  cases heq : (runTrack none hs).1 with
  | none =>
    rw [heq] at hu
    simp [usedOf] at hu
    exact absurd (List.eq_nil_of_length_eq_zero hu.symm) hne
  | some av =>
    rw [heq] at hc hg hu
    obtain ⟨hle, hlen, hpos⟩ := hg
    have hused : av.used = hs.length := by simpa [usedOf] using hu
    have htake : av.vector.take av.used = hs := by simpa [contents] using hc
    show (none, (freeLoop av.vector 0 av.used).2 ++ [Event.freeVector, Event.freeTracker]) = _
    rw [freeLoop_snd]
    have key : ∀ j ∈ List.range av.used,
        [Event.free (av.vector.getD (0 + j) 0), Event.clearSlot (0 + j)] =
        [Event.free (hs.getD j 0), Event.clearSlot j] := by
      intro j hj
      rw [List.mem_range] at hj
      have hgd : av.vector.getD j 0 = hs.getD j 0 := by
        rw [← htake, getD_take av.vector av.used j hj]
      rw [Nat.zero_add, hgd]
    rw [List.flatMap_congr key, hused]

theorem claim7_witness :
    freeObjects (runTrack none [1, 2, 3]).1 =
      (none, ((List.range ([1, 2, 3] : List Handle).length).flatMap fun i =>
        [Event.free (([1, 2, 3] : List Handle).getD i 0), Event.clearSlot i]) ++
        [Event.freeVector, Event.freeTracker]) :=
  claim7_release_event_order [1, 2, 3] (by simp)

/-- Claim C8: in every state reachable by any sequence of `trackObject` and
`freeObjects` calls, an allocated tracker satisfies `used ≤ size` (and `used`,
a `Nat` modelling the unsigned `size_t`, is nonnegative by type). -/
theorem claim8_used_le_size (s : Option AllocVector) (h : Reachable s)
    (av : AllocVector) (heq : s = some av) : av.used ≤ av.size := by
  have hg := reachable_goodState s h
  rw [heq] at hg
  exact hg.1

theorem claim8_witness :
    (AllocVector.mk ((List.replicate 128 0).set 0 5) 1 128).used ≤
      (AllocVector.mk ((List.replicate 128 0).set 0 5) 1 128).size :=
  claim8_used_le_size (trackObject none 5).1
    (Reachable.track none 5 Reachable.init)
    (AllocVector.mk ((List.replicate 128 0).set 0 5) 1 128)
    (by rw [trackObject_none_eq])

/-- Claim C9: no deduplication: registering the same pointer `k` times and
releasing frees that pointer exactly `k` times (the freed list is `k` copies
of it, so its count of `p` is `k`). -/
theorem claim9_no_dedup (p : Handle) (k : Nat) :
    freedPtrs (freeObjects (runTrack none (List.replicate k p)).1).2 =
      List.replicate k p ∧
    (freedPtrs (freeObjects (runTrack none (List.replicate k p)).1).2).count p = k := by
  refine ⟨run_then_free (List.replicate k p), ?_⟩
  rw [run_then_free (List.replicate k p)]
  simp

/-- Claim C10: a `NULL` handle (modelled as `0`) gets no special treatment:
it is stored and counted like any other handle, and the release pass hands it
to `free` (a no-op for `NULL` in C) and counts it among the releases — no
operation fails on it. -/
theorem claim10_null_handle_tracked (hs : List Handle) :
    contents (runTrack none (hs ++ [0])).1 = hs ++ [0] ∧
    usedOf (runTrack none (hs ++ [0])).1 = hs.length + 1 ∧
    freedPtrs (freeObjects (runTrack none (hs ++ [0])).1).2 = hs ++ [0] := by
  obtain ⟨hg, hc, hu, hf⟩ := runTrack_spec (hs ++ [0]) none trivial
  refine ⟨by simpa using hc, ?_, run_then_free (hs ++ [0])⟩
  rw [hu]
  simp [usedOf]

end ObjTrack
